import Mathlib

/-!
Shallow embedding of the overseer collateral module
(`src/contracts/overseer/src/collateral.rs`) of the maui_contracts
repository, together with the state and oracle helpers it calls.

Machine integers: `Uint128` values are embedded as `Nat` with an explicit
range check (`u128_add`) at the additive accumulation sites; the
fixed-point `Decimal` type of the host library (18 fractional decimal
digits, truncating integer division) is embedded by its atomics value.
Loan storage is a total map from borrower identifier to loan record,
matching the all-zero default that `read_loan` supplies for an absent
record. Address canonicalization is the identity: the claims under study
do not distinguish canonical from human-readable addresses.
-/

namespace Overseer

/-- The 18-decimal fixed-point type of the host library: the represented
value is `atomics / 10 ^ 18`. -/
structure Decimal where
  atomics : Nat
deriving DecidableEq, Repr

/-- The scaling factor of `Decimal`: `10 ^ 18`. -/
def DECIMAL_FRACTIONAL : Nat := 10 ^ 18

/-- One more than the largest representable `Uint128` value. -/
def U128_LIMIT : Nat := 2 ^ 128

/-- Errors surfaced by the module. The two solvency rejections are, as in
the source, generic errors carrying the exact message strings of
`collateral.rs`; the remaining constructors follow the error taxonomy of
the spec (section 7) for the helpers whose sources are not provided. -/
inductive StdErr where
  | generic (msg : String)
  | underflow
  | overflow
  | unknown_collateral
  | price_unavailable
deriving DecidableEq, Repr

/-- Modelled from the spec (section 7): a checked 128-bit addition that
rejects with `Overflow` when the accumulation exceeds the representable
range and never saturates or wraps. The source performs these additions on
`Uint128`; the host library and build profile that decide their overflow
behaviour are not part of the provided sources. -/
def u128_add (a b : Nat) : Except StdErr Nat :=
  if a + b < U128_LIMIT then .ok (a + b) else .error .overflow

/-- Multiplication of a `Uint128` by a `Decimal` in the host library:
multiply by the atomics and divide by `10 ^ 18` with truncating (floor)
integer division. -/
def mul_decimal (a : Nat) (d : Decimal) : Nat :=
  a * d.atomics / DECIMAL_FRACTIONAL

/-- Per-asset whitelist entry (spec section 3): the loan-to-value ratio. -/
structure WhitelistItem where
  ltv : Decimal
deriving DecidableEq, Repr

/-- Singleton protocol configuration (spec section 3). -/
structure Config where
  market_contract : String
  oracle_contract : String
  base_denom : String
deriving DecidableEq, Repr

/-- Per-borrower loan record (spec section 3). -/
structure Loan where
  collaterals : List (String × Nat)
  borrow_amount : Nat
deriving DecidableEq, Repr

/-- Read-only snapshot of everything outside the loan ledger: the stored
configuration, the whitelist table, and the oracle price table keyed by
(base denomination, asset). The oracle response also carries update
timestamps, which the source ignores; they are omitted here. -/
structure Ctx where
  config : Config
  whitelist : String → Option WhitelistItem
  oracle : String → String → Option Decimal

/-- Borrower-keyed loan storage; reading an absent record yields the
all-zero default (spec section 4.1), so storage is a total map. -/
abbrev Storage := String → Loan

/-- Modelled from the spec (section 4.1): `read_loan` returns the stored
record or an all-zero default if none exists; it never fails. -/
def read_loan (st : Storage) (b : String) : Loan := st b

/-- Modelled from the spec (section 4.1): `store_loan` writes the record of
one borrower, overwriting any prior record. -/
def store_loan (st : Storage) (b : String) (l : Loan) : Storage :=
  fun b' => if b' = b then l else st b'

/-- The empty ledger: every borrower at the all-zero default record. -/
def init_storage : Storage :=
  fun _ => { collaterals := [], borrow_amount := 0 }

/-- The locked amount recorded for one asset in a collateral list: the
amount of the first entry carrying that asset, or zero if there is none. -/
def lookup_amount : List (String × Nat) → String → Nat
  | [], _ => 0
  | (a, x) :: rest, b => if a = b then x else lookup_amount rest b

/-- Total amount requested for one asset across a delta list. -/
def sum_deposits : List (String × Nat) → String → Nat
  | [], _ => 0
  | (a, x) :: rest, b => (if a = b then x else 0) + sum_deposits rest b

/-- Modelled from the spec (section 4.1): one step of `add_collateral`
finds the matching entry by asset identifier and increases its amount, or
inserts a new entry if absent; the unsigned addition is checked (spec
sections 4.1 and 7). The insertion also passes through the checked
addition, standing for the `Uint128` range bound of the inserted value. -/
def add_one_collateral : List (String × Nat) → String → Nat → Except StdErr (List (String × Nat))
  | [], a, amt =>
    match u128_add 0 amt with
    | .error e => .error e
    | .ok v => .ok [(a, v)]
  | (a', x) :: rest, a, amt =>
    if a' = a then
      match u128_add x amt with
      | .error e => .error e
      | .ok v => .ok ((a', v) :: rest)
    else
      match add_one_collateral rest a amt with
      | .error e => .error e
      | .ok r => .ok ((a', x) :: r)

/-- Modelled from the spec (section 4.1): fold `add_one_collateral` over
the delta list. -/
def add_collaterals : List (String × Nat) → List (String × Nat) → Except StdErr (List (String × Nat))
  | cs, [] => .ok cs
  | cs, (a, amt) :: rest =>
    match add_one_collateral cs a amt with
    | .error e => .error e
    | .ok cs' => add_collaterals cs' rest

/-- Modelled from the spec (section 4.1): `Loan::add_collateral` from the
overseer state module, whose source is not provided. -/
def add_collateral (loan : Loan) (deltas : List (String × Nat)) : Except StdErr Loan :=
  match add_collaterals loan.collaterals deltas with
  | .error e => .error e
  | .ok cs => .ok { loan with collaterals := cs }

/-- Modelled from the spec (sections 4.1 and 7): one step of
`sub_collateral` decreases the matching entry, failing with `Underflow`
when the requested decrease exceeds the currently locked amount (zero for
an absent asset). -/
def sub_one_collateral : List (String × Nat) → String → Nat → Except StdErr (List (String × Nat))
  | [], _, amt => if amt = 0 then .ok [] else .error .underflow
  | (a', x) :: rest, a, amt =>
    if a' = a then
      if amt ≤ x then .ok ((a', x - amt) :: rest) else .error .underflow
    else
      match sub_one_collateral rest a amt with
      | .error e => .error e
      | .ok r => .ok ((a', x) :: r)

/-- Modelled from the spec (section 4.1): fold `sub_one_collateral` over
the delta list; a failure anywhere yields the error with nothing applied. -/
def sub_collaterals : List (String × Nat) → List (String × Nat) → Except StdErr (List (String × Nat))
  | cs, [] => .ok cs
  | cs, (a, amt) :: rest =>
    match sub_one_collateral cs a amt with
    | .error e => .error e
    | .ok cs' => sub_collaterals cs' rest

/-- Modelled from the spec (section 4.1): `Loan::sub_collateral` from the
overseer state module, whose source is not provided. -/
def sub_collateral (loan : Loan) (deltas : List (String × Nat)) : Except StdErr Loan :=
  match sub_collaterals loan.collaterals deltas with
  | .error e => .error e
  | .ok cs => .ok { loan with collaterals := cs }

/-- Modelled from the spec (sections 4.2 and 7): `load_oracle_price` from
the moneymarket package, whose source is not provided; it queries the
oracle collaborator for the price of `quote` in `base` and fails with
`PriceUnavailable` when the oracle cannot answer. Only the `rate` field of
the response is modelled; the source ignores the update timestamps. -/
def load_oracle_price (ctx : Ctx) (_oracle_contract base quote : String) : Except StdErr Decimal :=
  match ctx.oracle base quote with
  | some r => .ok r
  | none => .error .price_unavailable

/-- Modelled from the spec (sections 3 and 7): `read_whitelist_item` from
the overseer state module, whose source is not provided; absence of a
whitelist entry for a referenced asset fails with `UnknownCollateral`. -/
def read_whitelist_item (ctx : Ctx) (a : String) : Except StdErr WhitelistItem :=
  match ctx.whitelist a with
  | some item => .ok item
  | none => .error .unknown_collateral

/-- Outbound instructions (spec section 6). Custody lock and unlock
messages are addressed to the custody contract of one asset (in the source
the asset identifier is that contract address); the market message goes to
the market contract. -/
inductive CosmosMsg where
  | lock_collateral (contract_addr borrower : String) (amount : Nat)
  | unlock_collateral (contract_addr borrower : String) (amount : Nat)
  | execute_loan (contract_addr borrower : String) (amount : Nat)
deriving DecidableEq, Repr

/-- Loop body of `compute_borrow_limit` (collateral.rs lines 160 to 176),
in source order: oracle price query first, whitelist lookup second, then
the checked accumulation of `amount * ltv * price` with the
multiplications left-associated as in the source. -/
def compute_borrow_limit_go (ctx : Ctx) : List (String × Nat) → Nat → Except StdErr Nat
  | [], acc => .ok acc
  | (token, amount) :: rest, acc =>
    match load_oracle_price ctx ctx.config.oracle_contract ctx.config.base_denom token with
    | .error e => .error e
    | .ok price =>
      match read_whitelist_item ctx token with
      | .error e => .error e
      | .ok item =>
        match u128_add acc (mul_decimal (mul_decimal amount item.ltv) price) with
        | .error e => .error e
        | .ok acc' => compute_borrow_limit_go ctx rest acc'

/-- `compute_borrow_limit` (collateral.rs lines 153 to 179): fold the loop
body over the basket starting from zero. -/
def compute_borrow_limit (ctx : Ctx) (collaterals : List (String × Nat)) : Except StdErr Nat :=
  compute_borrow_limit_go ctx collaterals 0

/-- `handle_lock_collateral` (collateral.rs lines 11 to 54): add the
deposits to the borrower record, persist unconditionally, and emit one
custody lock instruction per deposited asset. -/
def handle_lock_collateral (_ctx : Ctx) (st : Storage) (sender : String)
    (collaterals : List (String × Nat)) : Except StdErr (Storage × List CosmosMsg) :=
  let loan := read_loan st sender
  match add_collateral loan collaterals with
  | .error e => .error e
  | .ok loan' =>
    .ok (store_loan st sender loan',
      collaterals.map fun c => CosmosMsg.lock_collateral c.1 sender c.2)

/-- `handle_unlock_collateral` (collateral.rs lines 56 to 109): subtract
the withdrawals, recompute the borrow limit over the reduced basket,
reject with the generic solvency message when the limit is below the
borrow amount, otherwise persist and emit one custody unlock instruction
per withdrawn asset. -/
def handle_unlock_collateral (ctx : Ctx) (st : Storage) (sender : String)
    (collaterals : List (String × Nat)) : Except StdErr (Storage × List CosmosMsg) :=
  let loan := read_loan st sender
  match sub_collateral loan collaterals with
  | .error e => .error e
  | .ok loan' =>
    match compute_borrow_limit ctx loan'.collaterals with
    | .error e => .error e
    | .ok borrow_limit =>
      if borrow_limit < loan'.borrow_amount then
        .error (.generic "Cannot unlock collateral more than minimum LTV")
      else
        .ok (store_loan st sender loan',
          collaterals.map fun c => CosmosMsg.unlock_collateral c.1 sender c.2)

/-- `handle_borrow` (collateral.rs lines 111 to 143): increase the borrow
amount of a working copy of the loan, recompute the limit over the
unchanged basket, and reject with the generic solvency message when the
limit is below the new debt. The source takes `deps` by immutable
reference and never calls `store_loan`, so on success the working copy is
dropped and the pre-request storage is returned unchanged together with
the single market instruction. -/
def handle_borrow (ctx : Ctx) (st : Storage) (sender : String)
    (amount : Nat) : Except StdErr (Storage × List CosmosMsg) :=
  let config := ctx.config
  let loan := read_loan st sender
  match u128_add loan.borrow_amount amount with
  | .error e => .error e
  | .ok new_borrow =>
    let loan' : Loan := { loan with borrow_amount := new_borrow }
    match compute_borrow_limit ctx loan'.collaterals with
    | .error e => .error e
    | .ok borrow_limit =>
      if borrow_limit < loan'.borrow_amount then
        .error (.generic "Cannot borrow more than minimum LTV")
      else
        .ok (st, [CosmosMsg.execute_loan config.market_contract sender amount])

/-- `handle_liquidiate_collateral` (collateral.rs lines 145 to 151,
keeping the source spelling): a placeholder that changes no state and
emits no instructions. -/
def handle_liquidiate_collateral (_ctx : Ctx) (st : Storage)
    (_borrower : String) : Except StdErr (Storage × List CosmosMsg) :=
  .ok (st, [])

/-- Hosting-framework semantics (spec section 5): storage writes are
committed and instructions dispatched only when the handler returns Ok; on
an error the pre-request storage stands and nothing is sent. -/
def run_handle (st : Storage) (r : Except StdErr (Storage × List CosmosMsg)) :
    Storage × List CosmosMsg :=
  match r with
  | .ok x => x
  | .error _ => (st, [])

/-- Ledger states reachable from the empty ledger through successful runs
of the four handlers, each step under an arbitrary snapshot and request. -/
inductive Reachable : Storage → Prop where
  | init : Reachable init_storage
  | lock {st : Storage} {ctx : Ctx} {sender : String} {cs : List (String × Nat)}
      {st' : Storage} {msgs : List CosmosMsg} :
      Reachable st → handle_lock_collateral ctx st sender cs = .ok (st', msgs) →
      Reachable st'
  | unlock {st : Storage} {ctx : Ctx} {sender : String} {cs : List (String × Nat)}
      {st' : Storage} {msgs : List CosmosMsg} :
      Reachable st → handle_unlock_collateral ctx st sender cs = .ok (st', msgs) →
      Reachable st'
  | borrow {st : Storage} {ctx : Ctx} {sender : String} {amount : Nat}
      {st' : Storage} {msgs : List CosmosMsg} :
      Reachable st → handle_borrow ctx st sender amount = .ok (st', msgs) →
      Reachable st'
  | liquidate {st : Storage} {ctx : Ctx} {borrower : String}
      {st' : Storage} {msgs : List CosmosMsg} :
      Reachable st → handle_liquidiate_collateral ctx st borrower = .ok (st', msgs) →
      Reachable st'

/-- The spec-side borrow limit (section 4.2 wording): the sum over all
(asset, amount) pairs of `amount * ltv * price`, multiplications in that
order, starting from zero; lookups are total here, defaulting to zero. -/
def whitelist_ltv (ctx : Ctx) (a : String) : Decimal :=
  match ctx.whitelist a with
  | some item => item.ltv
  | none => { atomics := 0 }

/-- The oracle rate used by the spec-side limit, defaulting to zero. -/
def oracle_rate (ctx : Ctx) (a : String) : Decimal :=
  match ctx.oracle ctx.config.base_denom a with
  | some r => r
  | none => { atomics := 0 }

/-- Spec-side limit sum (section 4.2): see `whitelist_ltv`. -/
def spec_borrow_limit (ctx : Ctx) : List (String × Nat) → Nat
  | [] => 0
  | (a, amt) :: rest =>
    mul_decimal (mul_decimal amt (whitelist_ltv ctx a)) (oracle_rate ctx a) +
      spec_borrow_limit ctx rest

/-- Concrete snapshot of the scenario in spec section 8: asset X has LTV
one half and oracle price ten in the base denomination. -/
def ctxX : Ctx where
  config := { market_contract := "market", oracle_contract := "oracle", base_denom := "uusd" }
  whitelist := fun a =>
    if a = "X" then some { ltv := { atomics := 5 * 10 ^ 17 } } else none
  oracle := fun _ quote =>
    if quote = "X" then some { atomics := 10 ^ 19 } else none

/-- Ledger after the scenario borrower locked 100 units of X. -/
def stX : Storage :=
  store_loan init_storage "bob" { collaterals := [("X", 100)], borrow_amount := 0 }

/-- A ledger holding a borrower with 100 units of X locked and an
outstanding debt of 500, used to exercise the rejection paths. -/
def stXdebt : Storage :=
  store_loan init_storage "bob" { collaterals := [("X", 100)], borrow_amount := 500 }

lemma u128_add_err {a b : Nat} {e : StdErr} (h : u128_add a b = .error e) :
    e = .overflow := by
  unfold u128_add at h
  split at h
  · cases h
  · cases h; rfl

lemma u128_add_ok {a b v : Nat} (h : u128_add a b = .ok v) :
    v = a + b ∧ a + b < U128_LIMIT := by
  unfold u128_add at h
  split at h
  next hlt => cases h; exact ⟨rfl, hlt⟩
  · cases h

lemma add_one_err {cs : List (String × Nat)} {a : String} {amt : Nat} {e : StdErr}
    (h : add_one_collateral cs a amt = .error e) : e = .overflow := by
  induction cs with
  | nil =>
    unfold add_one_collateral at h
    split at h
    next heq => cases h; exact u128_add_err heq
    next => cases h
  | cons hd tl ih =>
    unfold add_one_collateral at h
    split at h
    · split at h
      next heq => cases h; exact u128_add_err heq
      next => cases h
    · split at h
      next heq => cases h; exact ih heq
      next => cases h

lemma add_one_lookup {cs : List (String × Nat)} {a : String} {amt : Nat}
    {r : List (String × Nat)} (h : add_one_collateral cs a amt = .ok r)
    (b : String) :
    lookup_amount r b = lookup_amount cs b + (if a = b then amt else 0) := by
  induction cs generalizing r with
  | nil =>
    unfold add_one_collateral at h
    split at h
    next => cases h
    next v heq =>
      cases h
      rcases u128_add_ok heq with ⟨hv, _⟩
      by_cases hab : a = b <;> simp [lookup_amount, hab, hv]
  | cons hd tl ih =>
    unfold add_one_collateral at h
    split at h
    next hhd =>
      split at h
      next => cases h
      next v heq =>
        cases h
        rcases u128_add_ok heq with ⟨hv, _⟩
        by_cases hb : hd.1 = b
        · simp [lookup_amount, hb, hv, hhd ▸ hb]
        · have hab : ¬ a = b := fun hc => hb (hhd ▸ hc)
          simp [lookup_amount, hb, hab]
    next hhd =>
      split at h
      next => cases h
      next r0 heq =>
        cases h
        by_cases hb : hd.1 = b
        · have hab : ¬ a = b := fun hc => hhd (hb.trans hc.symm)
          simp [lookup_amount, hb, hab]
        · simp [lookup_amount, hb, ih heq]

lemma add_one_bound {cs : List (String × Nat)} {a : String} {amt : Nat}
    {r : List (String × Nat)} (h : add_one_collateral cs a amt = .ok r) :
    lookup_amount r a < U128_LIMIT := by
  induction cs generalizing r with
  | nil =>
    unfold add_one_collateral at h
    split at h
    next => cases h
    next v heq =>
      cases h
      rcases u128_add_ok heq with ⟨hv, hlt⟩
      simp [lookup_amount, hv]
      omega
  | cons hd tl ih =>
    unfold add_one_collateral at h
    split at h
    next hhd =>
      split at h
      next => cases h
      next v heq =>
        cases h
        rcases u128_add_ok heq with ⟨hv, hlt⟩
        simp [lookup_amount, hhd, hv]
        omega
    next hhd =>
      split at h
      next => cases h
      next r0 heq =>
        cases h
        simp [lookup_amount, hhd, ih heq]

lemma add_list_err {cs ds : List (String × Nat)} {e : StdErr}
    (h : add_collaterals cs ds = .error e) : e = .overflow := by
  induction ds generalizing cs with
  | nil => cases h
  | cons hd tl ih =>
    unfold add_collaterals at h
    split at h
    next heq => cases h; exact add_one_err heq
    next heq => exact ih h

lemma add_list_lookup {cs ds : List (String × Nat)} {r : List (String × Nat)}
    (h : add_collaterals cs ds = .ok r) (b : String) :
    lookup_amount r b = lookup_amount cs b + sum_deposits ds b := by
  induction ds generalizing cs with
  | nil => cases h; simp [sum_deposits]
  | cons hd tl ih =>
    unfold add_collaterals at h
    split at h
    next => cases h
    next cs' heq =>
      rw [ih h, add_one_lookup heq b]
      simp [sum_deposits]
      omega

lemma add_list_bound {cs ds : List (String × Nat)} {r : List (String × Nat)}
    (h : add_collaterals cs ds = .ok r) (b : String)
    (hpos : 0 < sum_deposits ds b) : lookup_amount r b < U128_LIMIT := by
  induction ds generalizing cs with
  | nil => simp [sum_deposits] at hpos
  | cons hd tl ih =>
    unfold add_collaterals at h
    split at h
    next => cases h
    next cs' heq =>
      by_cases htl : 0 < sum_deposits tl b
      · exact ih h htl
      · have htl0 : sum_deposits tl b = 0 := by omega
        have hhd : hd.1 = b := by
          by_contra hne
          simp [sum_deposits, hne, htl0] at hpos
        rw [add_list_lookup h b, htl0, Nat.add_zero]
        exact hhd ▸ add_one_bound heq

lemma sub_one_err {cs : List (String × Nat)} {a : String} {amt : Nat} {e : StdErr}
    (h : sub_one_collateral cs a amt = .error e) : e = .underflow := by
  induction cs with
  | nil =>
    unfold sub_one_collateral at h
    split at h
    · cases h
    · cases h; rfl
  | cons hd tl ih =>
    unfold sub_one_collateral at h
    split at h
    · split at h
      · cases h
      · cases h; rfl
    · split at h
      next heq => cases h; exact ih heq
      next => cases h

lemma sub_one_underflow {cs : List (String × Nat)} {a : String} {amt : Nat}
    (hlt : lookup_amount cs a < amt) :
    sub_one_collateral cs a amt = .error .underflow := by
  induction cs with
  | nil =>
    simp [lookup_amount] at hlt
    unfold sub_one_collateral
    simp [Nat.pos_iff_ne_zero.mp hlt]
  | cons hd tl ih =>
    unfold sub_one_collateral
    by_cases hhd : hd.1 = a
    · simp [lookup_amount, hhd] at hlt
      simp [hhd, Nat.not_le.mpr hlt]
    · simp only [lookup_amount, if_neg hhd] at hlt
      simp [hhd, ih hlt]

lemma sub_one_lookup_le {cs : List (String × Nat)} {a : String} {amt : Nat}
    {r : List (String × Nat)} (h : sub_one_collateral cs a amt = .ok r)
    (b : String) : lookup_amount r b ≤ lookup_amount cs b := by
  induction cs generalizing r with
  | nil =>
    unfold sub_one_collateral at h
    split at h
    · cases h; exact Nat.le_refl _
    · cases h
  | cons hd tl ih =>
    unfold sub_one_collateral at h
    split at h
    next hhd =>
      split at h
      next hle =>
        cases h
        by_cases hb : hd.1 = b <;> simp [lookup_amount, hb]
      next => cases h
    next hhd =>
      split at h
      next => cases h
      next r0 heq =>
        cases h
        by_cases hb : hd.1 = b <;> simp [lookup_amount, hb, ih heq]

lemma sub_list_err {cs ds : List (String × Nat)} {e : StdErr}
    (h : sub_collaterals cs ds = .error e) : e = .underflow := by
  induction ds generalizing cs with
  | nil => cases h
  | cons hd tl ih =>
    unfold sub_collaterals at h
    split at h
    next heq => cases h; exact sub_one_err heq
    next heq => exact ih h

lemma sub_list_underflow {cs ds : List (String × Nat)}
    (hex : ∃ p ∈ ds, lookup_amount cs p.1 < p.2) :
    sub_collaterals cs ds = .error .underflow := by
  induction ds generalizing cs with
  | nil => simp at hex
  | cons hd tl ih =>
    rcases hex with ⟨p, hp, hlt⟩
    unfold sub_collaterals
    rcases List.mem_cons.mp hp with hphd | hptl
    · subst hphd
      rw [sub_one_underflow hlt]
    · cases heq : sub_one_collateral cs hd.1 hd.2 with
      | error e => rw [sub_one_err heq]
      | ok cs' =>
        exact ih ⟨p, hptl, Nat.lt_of_le_of_lt (sub_one_lookup_le heq p.1) hlt⟩

lemma go_ok {ctx : Ctx} {cs : List (String × Nat)} {acc : Nat}
    (hlook : ∀ p ∈ cs, (ctx.whitelist p.1).isSome ∧
      (ctx.oracle ctx.config.base_denom p.1).isSome)
    (hlim : acc + spec_borrow_limit ctx cs < U128_LIMIT) :
    compute_borrow_limit_go ctx cs acc = .ok (acc + spec_borrow_limit ctx cs) := by
  induction cs generalizing acc with
  | nil => simp [compute_borrow_limit_go, spec_borrow_limit]
  | cons hd tl ih =>
    obtain ⟨token, amount⟩ := hd
    obtain ⟨hw, ho⟩ := hlook (token, amount) (List.mem_cons_self _ tl)
    rcases Option.isSome_iff_exists.mp hw with ⟨item, hitem⟩
    rcases Option.isSome_iff_exists.mp ho with ⟨rate, hrate⟩
    have hterm : mul_decimal (mul_decimal amount item.ltv) rate =
        mul_decimal (mul_decimal amount (whitelist_ltv ctx token)) (oracle_rate ctx token) := by
      simp [whitelist_ltv, oracle_rate, hitem, hrate]
    have hspec : spec_borrow_limit ctx ((token, amount) :: tl) =
        mul_decimal (mul_decimal amount (whitelist_ltv ctx token)) (oracle_rate ctx token) +
          spec_borrow_limit ctx tl := rfl
    rw [hspec] at hlim ⊢
    have hstep : acc + mul_decimal (mul_decimal amount (whitelist_ltv ctx token))
        (oracle_rate ctx token) < U128_LIMIT := by omega
    have hrec := @ih (acc + mul_decimal (mul_decimal amount (whitelist_ltv ctx token))
        (oracle_rate ctx token)) (fun p hp => hlook p (List.mem_cons_of_mem _ hp))
        (by omega)
    simp only [compute_borrow_limit_go, load_oracle_price, read_whitelist_item,
      hitem, hrate]
    rw [hterm]
    have hadd : u128_add acc (mul_decimal (mul_decimal amount (whitelist_ltv ctx token))
        (oracle_rate ctx token)) = .ok (acc + mul_decimal (mul_decimal amount
        (whitelist_ltv ctx token)) (oracle_rate ctx token)) := by
      unfold u128_add
      rw [if_pos hstep]
    rw [hadd, ← Nat.add_assoc]
    exact hrec

lemma go_overflow {ctx : Ctx} {cs : List (String × Nat)} {acc : Nat}
    (hlook : ∀ p ∈ cs, (ctx.whitelist p.1).isSome ∧
      (ctx.oracle ctx.config.base_denom p.1).isSome)
    (hacc : acc < U128_LIMIT)
    (hlim : U128_LIMIT ≤ acc + spec_borrow_limit ctx cs) :
    compute_borrow_limit_go ctx cs acc = .error .overflow := by
  induction cs generalizing acc with
  | nil => simp [spec_borrow_limit] at hlim; omega
  | cons hd tl ih =>
    obtain ⟨token, amount⟩ := hd
    obtain ⟨hw, ho⟩ := hlook (token, amount) (List.mem_cons_self _ tl)
    rcases Option.isSome_iff_exists.mp hw with ⟨item, hitem⟩
    rcases Option.isSome_iff_exists.mp ho with ⟨rate, hrate⟩
    have hterm : mul_decimal (mul_decimal amount item.ltv) rate =
        mul_decimal (mul_decimal amount (whitelist_ltv ctx token)) (oracle_rate ctx token) := by
      simp [whitelist_ltv, oracle_rate, hitem, hrate]
    have hspec : spec_borrow_limit ctx ((token, amount) :: tl) =
        mul_decimal (mul_decimal amount (whitelist_ltv ctx token)) (oracle_rate ctx token) +
          spec_borrow_limit ctx tl := rfl
    rw [hspec] at hlim
    simp only [compute_borrow_limit_go, load_oracle_price, read_whitelist_item,
      hitem, hrate]
    rw [hterm]
    by_cases hstep : acc + mul_decimal (mul_decimal amount (whitelist_ltv ctx token))
        (oracle_rate ctx token) < U128_LIMIT
    · have hadd : u128_add acc (mul_decimal (mul_decimal amount (whitelist_ltv ctx token))
          (oracle_rate ctx token)) = .ok (acc + mul_decimal (mul_decimal amount
          (whitelist_ltv ctx token)) (oracle_rate ctx token)) := by
        unfold u128_add
        rw [if_pos hstep]
      rw [hadd]
      exact @ih (acc + mul_decimal (mul_decimal amount (whitelist_ltv ctx token))
        (oracle_rate ctx token)) (fun p hp => hlook p (List.mem_cons_of_mem _ hp))
        hstep (by omega)
    · have hadd : u128_add acc (mul_decimal (mul_decimal amount (whitelist_ltv ctx token))
          (oracle_rate ctx token)) = .error .overflow := by
        unfold u128_add
        rw [if_neg hstep]
      rw [hadd]

lemma go_err_of_unwhitelisted {ctx : Ctx} {cs : List (String × Nat)} {a : String}
    (hnone : ctx.whitelist a = none) :
    ∀ acc, (∃ amt, (a, amt) ∈ cs) →
      ∃ e, compute_borrow_limit_go ctx cs acc = .error e := by
  induction cs with
  | nil => intro acc hex; simp at hex
  | cons hd tl ih =>
    intro acc ⟨amt, hmem⟩
    cases hd with
    | mk token amount =>
      simp only [compute_borrow_limit_go]
      cases ho : ctx.oracle ctx.config.base_denom token with
      | none => exact ⟨.price_unavailable, by simp [load_oracle_price, ho]⟩
      | some rate =>
        simp only [load_oracle_price, ho]
        rcases List.mem_cons.mp hmem with hhd | htl
        · have htok : token = a := by cases hhd; rfl
          subst htok
          exact ⟨.unknown_collateral, by simp [read_whitelist_item, hnone]⟩
        · cases hw : ctx.whitelist token with
          | none => exact ⟨.unknown_collateral, by simp [read_whitelist_item, hw]⟩
          | some item =>
            simp only [read_whitelist_item, hw]
            cases hadd : u128_add acc (mul_decimal (mul_decimal amount item.ltv) rate) with
            | error e => exact ⟨e, rfl⟩
            | ok acc' => exact ih acc' ⟨amt, htl⟩

lemma add_collateral_ok {loan : Loan} {ds : List (String × Nat)} {loan' : Loan}
    (h : add_collateral loan ds = .ok loan') :
    loan'.borrow_amount = loan.borrow_amount ∧
      add_collaterals loan.collaterals ds = .ok loan'.collaterals := by
  unfold add_collateral at h
  split at h
  next => cases h
  next cs heq => cases h; exact ⟨rfl, heq⟩

lemma add_collateral_err {loan : Loan} {ds : List (String × Nat)} {e : StdErr}
    (h : add_collateral loan ds = .error e) : e = .overflow := by
  unfold add_collateral at h
  split at h
  next heq => cases h; exact add_list_err heq
  next => cases h

lemma sub_collateral_ok {loan : Loan} {ds : List (String × Nat)} {loan' : Loan}
    (h : sub_collateral loan ds = .ok loan') :
    loan'.borrow_amount = loan.borrow_amount ∧
      sub_collaterals loan.collaterals ds = .ok loan'.collaterals := by
  unfold sub_collateral at h
  split at h
  next => cases h
  next cs heq => cases h; exact ⟨rfl, heq⟩

lemma sub_collateral_err {loan : Loan} {ds : List (String × Nat)} {e : StdErr}
    (h : sub_collateral loan ds = .error e) :
    sub_collaterals loan.collaterals ds = .error e := by
  unfold sub_collateral at h
  split at h
  next heq => cases h; exact heq
  next => cases h

lemma handle_lock_ok {ctx : Ctx} {st : Storage} {sender : String}
    {cs : List (String × Nat)} {st' : Storage} {msgs : List CosmosMsg}
    (h : handle_lock_collateral ctx st sender cs = .ok (st', msgs)) :
    ∃ loan', add_collateral (read_loan st sender) cs = .ok loan' ∧
      st' = store_loan st sender loan' ∧
      msgs = cs.map fun c => CosmosMsg.lock_collateral c.1 sender c.2 := by
  simp only [handle_lock_collateral] at h
  split at h
  next => cases h
  next loan' heq => cases h; exact ⟨loan', heq, rfl, rfl⟩

lemma handle_unlock_ok {ctx : Ctx} {st : Storage} {sender : String}
    {cs : List (String × Nat)} {st' : Storage} {msgs : List CosmosMsg}
    (h : handle_unlock_collateral ctx st sender cs = .ok (st', msgs)) :
    ∃ loan' limit, sub_collateral (read_loan st sender) cs = .ok loan' ∧
      compute_borrow_limit ctx loan'.collaterals = .ok limit ∧
      loan'.borrow_amount ≤ limit ∧
      st' = store_loan st sender loan' ∧
      msgs = cs.map fun c => CosmosMsg.unlock_collateral c.1 sender c.2 := by
  simp only [handle_unlock_collateral] at h
  split at h
  next => cases h
  next loan' heq =>
    split at h
    next => cases h
    next limit heq2 =>
      split at h
      next => cases h
      next hge =>
        cases h
        exact ⟨loan', limit, heq, heq2, Nat.not_lt.mp hge, rfl, rfl⟩

lemma handle_borrow_ok {ctx : Ctx} {st : Storage} {sender : String}
    {amount : Nat} {st' : Storage} {msgs : List CosmosMsg}
    (h : handle_borrow ctx st sender amount = .ok (st', msgs)) :
    st' = st ∧
      msgs = [CosmosMsg.execute_loan ctx.config.market_contract sender amount] := by
  simp only [handle_borrow] at h
  split at h
  next => cases h
  next nb heq =>
    split at h
    next => cases h
    next limit heq2 =>
      split at h
      next => cases h
      next => cases h; exact ⟨rfl, rfl⟩

lemma reachable_borrow_zero {st : Storage} (h : Reachable st) :
    ∀ b, (st b).borrow_amount = 0 := by
  induction h with
  | init => intro b; rfl
  | @lock st ctx sender cs st' msgs hR hOk ih =>
    intro b
    obtain ⟨loan', heq, hst', -⟩ := handle_lock_ok hOk
    subst hst'
    unfold store_loan
    by_cases hb : b = sender
    · simpa [hb, (add_collateral_ok heq).1, read_loan] using ih sender
    · simpa [hb] using ih b
  | @unlock st ctx sender cs st' msgs hR hOk ih =>
    intro b
    obtain ⟨loan', limit, heq, -, -, hst', -⟩ := handle_unlock_ok hOk
    subst hst'
    unfold store_loan
    by_cases hb : b = sender
    · simpa [hb, (sub_collateral_ok heq).1, read_loan] using ih sender
    · simpa [hb] using ih b
  | @borrow st ctx sender amount st' msgs hR hOk ih =>
    intro b
    obtain ⟨hst', -⟩ := handle_borrow_ok hOk
    subst hst'
    exact ih b
  | @liquidate st ctx borrower st' msgs hR hOk ih =>
    intro b
    unfold handle_liquidiate_collateral at hOk
    cases hOk
    exact ih b

lemma mem_le_sum_deposits {ds : List (String × Nat)} {p : String × Nat}
    (hp : p ∈ ds) : p.2 ≤ sum_deposits ds p.1 := by
  induction ds with
  | nil => cases hp
  | cons hd tl ih =>
    rcases List.mem_cons.mp hp with h | h
    · subst h; simp [sum_deposits]
    · have := ih h
      simp only [sum_deposits]
      split <;> omega

/-- Snapshot with an empty whitelist and an oracle that cannot answer
for any asset pair. -/
def ctxNone : Ctx where
  config := { market_contract := "market", oracle_contract := "oracle", base_denom := "uusd" }
  whitelist := fun _ => none
  oracle := fun _ _ => none

/-- Snapshot with an empty whitelist but an oracle price for asset Y. -/
def ctxY : Ctx where
  config := { market_contract := "market", oracle_contract := "oracle", base_denom := "uusd" }
  whitelist := fun _ => none
  oracle := fun _ quote => if quote = "Y" then some { atomics := 10 ^ 18 } else none

/-- Claim C1, evidence of the code bug: in the section 8 scenario state
(100 units of X locked, LTV one half, price ten, so the recomputed limit
500 is not exceeded by the requested 500), `handle_borrow` succeeds and
returns exactly one ExecuteLoan instruction addressed to the market
contract for the amount, but it returns the pre-request storage itself:
the borrower record is not persisted with an increased borrow amount,
because the source never calls `store_loan` in `handle_borrow`. -/
theorem C1_borrow_success_does_not_persist :
    handle_borrow ctxX stX "bob" 500 =
      .ok (stX, [CosmosMsg.execute_loan "market" "bob" 500]) ∧
    (read_loan stX "bob").borrow_amount = 0 :=
  ⟨rfl, rfl⟩

/-- Claim C2: for every borrower, in every ledger reachable from the empty
ledger through successful runs of the four handlers, the persisted record
satisfies borrow_amount at most the computed borrow limit, under every
snapshot for which the limit computation succeeds (in particular the one
the operation used). It holds because no reachable record carries a
nonzero borrow amount: `handle_borrow` never persists. -/
theorem C2_solvency_invariant {st : Storage} (h : Reachable st) (b : String)
    (ctx : Ctx) (limit : Nat)
    (_hlim : compute_borrow_limit ctx (st b).collaterals = .ok limit) :
    (st b).borrow_amount ≤ limit := by
  rw [reachable_borrow_zero h b]
  exact Nat.zero_le _

/-- Witness for C2 at the initial ledger and the scenario snapshot. -/
theorem C2_solvency_invariant_witness :
    (init_storage "alice").borrow_amount ≤ 0 :=
  C2_solvency_invariant Reachable.init "alice" ctxX 0 rfl

/-- Claim C3, evidence of the code bug: in the section 8 scenario the lock
and the limit of 500 behave as claimed and Borrow 500 succeeds with one
ExecuteLoan instruction, but the stored borrow amount remains 0 instead of
becoming 500, and the subsequent Borrow 1 request also succeeds instead of
failing with the solvency error, because `handle_borrow` never persists
the increased debt. -/
theorem C3_scenario_run :
    handle_lock_collateral ctxX init_storage "bob" [("X", 100)] =
      .ok (stX, [CosmosMsg.lock_collateral "X" "bob" 100]) ∧
    compute_borrow_limit ctxX [("X", 100)] = .ok 500 ∧
    handle_borrow ctxX stX "bob" 500 =
      .ok (stX, [CosmosMsg.execute_loan "market" "bob" 500]) ∧
    (read_loan stX "bob").borrow_amount = 0 ∧
    handle_borrow ctxX stX "bob" 1 =
      .ok (stX, [CosmosMsg.execute_loan "market" "bob" 1]) :=
  ⟨rfl, rfl, rfl, rfl, rfl⟩

/-- Claim C4: whenever the solvency check fails, unlock rejects with the
InsufficientCollateral message and borrow with the ExceedsLimit message,
and under the hosting-framework semantics the committed storage equals the
pre-request storage and no instructions are emitted. -/
theorem C4_rejection_leaves_no_side_effects (ctx : Ctx) (st : Storage)
    (sender : String) :
    (∀ (w : List (String × Nat)) (loan' : Loan) (limit : Nat),
      sub_collateral (read_loan st sender) w = .ok loan' →
      compute_borrow_limit ctx loan'.collaterals = .ok limit →
      limit < loan'.borrow_amount →
      handle_unlock_collateral ctx st sender w =
        .error (.generic "Cannot unlock collateral more than minimum LTV") ∧
      run_handle st (handle_unlock_collateral ctx st sender w) = (st, [])) ∧
    (∀ (amount new_borrow limit : Nat),
      u128_add (read_loan st sender).borrow_amount amount = .ok new_borrow →
      compute_borrow_limit ctx (read_loan st sender).collaterals = .ok limit →
      limit < new_borrow →
      handle_borrow ctx st sender amount =
        .error (.generic "Cannot borrow more than minimum LTV") ∧
      run_handle st (handle_borrow ctx st sender amount) = (st, [])) := by
  constructor
  · intro w loan' limit h1 h2 h3
    have herr : handle_unlock_collateral ctx st sender w =
        .error (.generic "Cannot unlock collateral more than minimum LTV") := by
      simp only [handle_unlock_collateral, h1, h2]
      rw [if_pos h3]
    exact ⟨herr, by rw [herr]; rfl⟩
  · intro amount new_borrow limit h1 h2 h3
    have herr : handle_borrow ctx st sender amount =
        .error (.generic "Cannot borrow more than minimum LTV") := by
      simp only [handle_borrow, h1]
      have hcoll : ({ read_loan st sender with borrow_amount := new_borrow } : Loan).collaterals =
          (read_loan st sender).collaterals := rfl
      rw [hcoll, h2]
      exact if_pos h3
    exact ⟨herr, by rw [herr]; rfl⟩

/-- Witness for C4 at the stXdebt ledger: unlocking the whole basket while
500 is owed trips the solvency check. -/
theorem C4_rejection_witness :
    handle_unlock_collateral ctxX stXdebt "bob" [("X", 100)] =
      .error (.generic "Cannot unlock collateral more than minimum LTV") ∧
    run_handle stXdebt (handle_unlock_collateral ctxX stXdebt "bob" [("X", 100)]) =
      (stXdebt, []) :=
  (C4_rejection_leaves_no_side_effects ctxX stXdebt "bob").1 [("X", 100)]
    { collaterals := [("X", 0)], borrow_amount := 500 } 0 rfl rfl (by decide)

/-- Claim C5: an unlock request in which some requested withdrawal exceeds
the locked amount of that asset fails with Underflow, emits no
instructions, and leaves the committed storage at its pre-request value. -/
theorem C5_underflow_guard (ctx : Ctx) (st : Storage) (sender : String)
    (w : List (String × Nat))
    (hex : ∃ p ∈ w, lookup_amount (read_loan st sender).collaterals p.1 < p.2) :
    handle_unlock_collateral ctx st sender w = .error .underflow ∧
    run_handle st (handle_unlock_collateral ctx st sender w) = (st, []) := by
  have hsub : sub_collaterals (read_loan st sender).collaterals w =
      .error .underflow := sub_list_underflow hex
  have herr : handle_unlock_collateral ctx st sender w = .error .underflow := by
    simp only [handle_unlock_collateral, sub_collateral, hsub]
  exact ⟨herr, by rw [herr]; rfl⟩

/-- Witness for C5: withdrawing 101 units of X when only 100 are locked. -/
theorem C5_underflow_guard_witness :
    handle_unlock_collateral ctxX stX "bob" [("X", 101)] = .error .underflow ∧
    run_handle stX (handle_unlock_collateral ctxX stX "bob" [("X", 101)]) =
      (stX, []) :=
  C5_underflow_guard ctxX stX "bob" [("X", 101)]
    ⟨("X", 101), by decide, by decide⟩

/-- Claim C6: when every basket asset is whitelisted and priced and the
accumulated sum is representable, `compute_borrow_limit` returns the sum
over the (asset, amount) pairs of amount times ltv times price, with the
multiplications performed in that left-associated order, starting from
zero. -/
theorem C6_limit_is_ordered_sum (ctx : Ctx) (cs : List (String × Nat))
    (hlook : ∀ p ∈ cs, (ctx.whitelist p.1).isSome ∧
      (ctx.oracle ctx.config.base_denom p.1).isSome)
    (hrange : spec_borrow_limit ctx cs < U128_LIMIT) :
    compute_borrow_limit ctx cs = .ok (spec_borrow_limit ctx cs) := by
  have h := @go_ok ctx cs 0 hlook (by omega)
  simpa [compute_borrow_limit] using h

/-- Witness for C6 on a two-entry basket under the scenario snapshot. -/
theorem C6_limit_is_ordered_sum_witness :
    compute_borrow_limit ctxX [("X", 100), ("X", 3)] =
      .ok (spec_borrow_limit ctxX [("X", 100), ("X", 3)]) :=
  C6_limit_is_ordered_sum ctxX [("X", 100), ("X", 3)] (by decide) (by decide)

/-- Claim C7 counterexample: for an asset that is both unwhitelisted and
unpriced, `compute_borrow_limit` returns PriceUnavailable, not the
UnknownCollateral error the claim requires, because the source queries the
oracle before the whitelist. -/
theorem C7_order_counterexample :
    compute_borrow_limit ctxNone [("Y", 1)] = .error .price_unavailable ∧
    StdErr.price_unavailable ≠ StdErr.unknown_collateral :=
  ⟨rfl, by decide⟩

/-- Claim C7 as amended: per basket entry the oracle price query is
performed before the whitelist lookup, so a basket headed by an
unwhitelisted asset fails with UnknownCollateral when the price is
available and with PriceUnavailable when it is not; and a basket
containing an unwhitelisted asset anywhere never computes a limit. -/
theorem C7_amended_oracle_query_first (ctx : Ctx) (a : String)
    (hw : ctx.whitelist a = none) :
    (∀ (amt : Nat) (rest : List (String × Nat)) (r : Decimal),
      ctx.oracle ctx.config.base_denom a = some r →
      compute_borrow_limit ctx ((a, amt) :: rest) = .error .unknown_collateral) ∧
    (∀ (amt : Nat) (rest : List (String × Nat)),
      ctx.oracle ctx.config.base_denom a = none →
      compute_borrow_limit ctx ((a, amt) :: rest) = .error .price_unavailable) ∧
    (∀ cs : List (String × Nat), (∃ amt, (a, amt) ∈ cs) →
      ∃ e, compute_borrow_limit ctx cs = .error e) := by
  refine ⟨?_, ?_, ?_⟩
  · intro amt rest r hr
    simp [compute_borrow_limit, compute_borrow_limit_go, load_oracle_price, hr,
      read_whitelist_item, hw]
  · intro amt rest ho
    simp [compute_borrow_limit, compute_borrow_limit_go, load_oracle_price, ho]
  · intro cs hex
    exact go_err_of_unwhitelisted hw 0 hex

/-- Witness for the amended C7: asset Y is priced but not whitelisted. -/
theorem C7_amended_witness :
    compute_borrow_limit ctxY [("Y", 7)] = .error .unknown_collateral :=
  (C7_amended_oracle_query_first ctxY "Y" rfl).1 7 [] { atomics := 10 ^ 18 } rfl

/-- Claim C8: `handle_lock_collateral` performs no solvency check (its only
possible failure is the arithmetic Overflow), persists the updated loan on
success, emits one custody lock instruction per deposited asset carrying
the borrower and amount, and each deposited asset ends with a locked
amount at least its previous one, strictly greater for a nonzero
deposit. -/
theorem C8_lock_unconditional_and_monotone (ctx : Ctx) (st : Storage)
    (sender : String) (ds : List (String × Nat)) :
    (∀ e, handle_lock_collateral ctx st sender ds = .error e → e = .overflow) ∧
    (∀ st' msgs, handle_lock_collateral ctx st sender ds = .ok (st', msgs) →
      (∃ loan', add_collateral (read_loan st sender) ds = .ok loan' ∧
        st' = store_loan st sender loan') ∧
      msgs = ds.map (fun c => CosmosMsg.lock_collateral c.1 sender c.2) ∧
      ∀ p ∈ ds,
        lookup_amount (read_loan st sender).collaterals p.1 ≤
          lookup_amount (read_loan st' sender).collaterals p.1 ∧
        (0 < p.2 →
          lookup_amount (read_loan st sender).collaterals p.1 <
            lookup_amount (read_loan st' sender).collaterals p.1)) := by
  constructor
  · intro e he
    simp only [handle_lock_collateral] at he
    split at he
    next heq => cases he; exact add_collateral_err heq
    next => cases he
  · intro st' msgs h
    obtain ⟨loan', heq, hst', hmsgs⟩ := handle_lock_ok h
    refine ⟨⟨loan', heq, hst'⟩, hmsgs, ?_⟩
    intro p hp
    obtain ⟨hbor, hlist⟩ := add_collateral_ok heq
    have hsd : read_loan st' sender = loan' := by
      subst hst'
      simp [read_loan, store_loan]
    rw [hsd]
    have hlook := add_list_lookup hlist p.1
    have hsum := mem_le_sum_deposits hp
    constructor
    · omega
    · intro hpos
      omega

/-- Witness for C8: locking 100 units of X strictly raises the locked
amount from 0 to 100. -/
theorem C8_lock_witness :
    lookup_amount (read_loan init_storage "bob").collaterals "X" <
      lookup_amount (read_loan stX "bob").collaterals "X" :=
  (((C8_lock_unconditional_and_monotone ctxX init_storage "bob"
      [("X", 100)]).2 stX [CosmosMsg.lock_collateral "X" "bob" 100]
      rfl).2.2 ("X", 100) (by decide)).2 (by decide)

/-- Claim C9: each of the three accumulations rejects with Overflow when
it would exceed the representable unsigned range, never saturating or
wrapping: the debt increase in borrow, the deposit additions in lock, and
the running accumulation of the limit computation. -/
theorem C9_overflow_rejected (ctx : Ctx) (st : Storage) (sender : String) :
    (∀ amount : Nat,
      U128_LIMIT ≤ (read_loan st sender).borrow_amount + amount →
      handle_borrow ctx st sender amount = .error .overflow) ∧
    (∀ ds : List (String × Nat),
      (∃ a, 0 < sum_deposits ds a ∧
        U128_LIMIT ≤ lookup_amount (read_loan st sender).collaterals a +
          sum_deposits ds a) →
      handle_lock_collateral ctx st sender ds = .error .overflow) ∧
    (∀ cs : List (String × Nat),
      (∀ p ∈ cs, (ctx.whitelist p.1).isSome ∧
        (ctx.oracle ctx.config.base_denom p.1).isSome) →
      U128_LIMIT ≤ spec_borrow_limit ctx cs →
      compute_borrow_limit ctx cs = .error .overflow) := by
  refine ⟨?_, ?_, ?_⟩
  · intro amount hge
    have hadd : u128_add (read_loan st sender).borrow_amount amount =
        .error .overflow := by
      unfold u128_add
      rw [if_neg (Nat.not_lt.mpr hge)]
    simp only [handle_borrow, hadd]
  · intro ds ⟨a, hpos, hge⟩
    cases hadd : add_collaterals (read_loan st sender).collaterals ds with
    | error e =>
      have he : e = .overflow := add_list_err hadd
      subst he
      simp only [handle_lock_collateral, add_collateral, hadd]
    | ok r =>
      exfalso
      have h1 := add_list_lookup hadd a
      have h2 := add_list_bound hadd a hpos
      omega
  · intro cs hlook hge
    exact go_overflow hlook (by decide) (by omega)

/-- Witness for C9: borrowing the first unrepresentable amount from the
empty ledger is rejected with Overflow. -/
theorem C9_overflow_witness :
    handle_borrow ctxX init_storage "bob" (2 ^ 128) = .error .overflow :=
  (C9_overflow_rejected ctxX init_storage "bob").1 (2 ^ 128) (by decide)

/-- Claim C10: the Uint128 by Decimal multiplication used for every basket
term truncates toward zero (floor characterisation against the atomics),
so the per-entry contribution is floor of floor of amount times ltv, times
price; in particular an entry of amount 1 at LTV one half contributes
exactly zero to the limit. -/
theorem C10_terms_truncate :
    (∀ (a : Nat) (d : Decimal),
      mul_decimal a d * DECIMAL_FRACTIONAL ≤ a * d.atomics ∧
      a * d.atomics < (mul_decimal a d + 1) * DECIMAL_FRACTIONAL) ∧
    (∀ (ctx : Ctx) (a : String) (r : Decimal) (rest : List (String × Nat)),
      ctx.whitelist a = some { ltv := { atomics := 5 * 10 ^ 17 } } →
      ctx.oracle ctx.config.base_denom a = some r →
      compute_borrow_limit ctx ((a, 1) :: rest) = compute_borrow_limit ctx rest) := by
  constructor
  · intro a d
    unfold mul_decimal
    refine ⟨Nat.div_mul_le_self _ _, ?_⟩
    have hF : 0 < DECIMAL_FRACTIONAL := by decide
    exact (Nat.div_lt_iff_lt_mul hF).mp (Nat.lt_succ_self _)
  · intro ctx a r rest hw hr
    simp only [compute_borrow_limit, compute_borrow_limit_go, load_oracle_price,
      hr, read_whitelist_item, hw]
    have h1 : mul_decimal (mul_decimal 1 { atomics := 5 * 10 ^ 17 }) r = 0 := by
      have : mul_decimal 1 { atomics := 5 * 10 ^ 17 } = 0 := by decide
      rw [this]
      unfold mul_decimal
      simp
    rw [h1]
    have h2 : u128_add 0 0 = .ok 0 := rfl
    rw [h2]

/-- Witness for C10: in the scenario snapshot a single unit of X at LTV
one half adds nothing to the limit. -/
theorem C10_terms_truncate_witness :
    compute_borrow_limit ctxX [("X", 1)] = compute_borrow_limit ctxX [] :=
  C10_terms_truncate.2 ctxX "X" { atomics := 10 ^ 19 } [] rfl rfl

end Overseer
